import Mathlib

/-!
Verification development for the Jester realtime relay and its Kalshi trading
module.  The definitions below are a shallow embedding of `src/server.ts` and
`src/kalshi.ts`: pure functions are translated directly; the stateful handlers
are modelled as functions from an explicit environment (the sequence of
HTTP responses the external API would return) to the produced result, the
appended log entries and the trace of outbound network calls.  JavaScript
numbers are modelled as an inductive over ℚ plus the non-finite values,
JavaScript strings as Lean strings (ASCII behaviour; `localeCompare` is
modelled as code-point lexicographic order, and `Array.prototype.sort` —
stable per the ECMAScript spec — as a stable insertion sort).
Wall-clock timestamps (`Date.now()`, the ISO window bounds) are threaded as
opaque parameters; the `at` fields of log entries and the diagnostic
`details` samples of live log entries are elided (pure observability data,
never read back by the program).
-/

set_option maxRecDepth 16384

namespace Jester

/-! ## JavaScript string and number primitives -/

/-- Whitespace as stripped by `String.prototype.trim` (ASCII subset). -/
def jsWhitespace (c : Char) : Bool :=
  c == ' ' || c == '\t' || c == '\n' || c == '\r'

/-- Character-list core of `String.prototype.trim`: drop whitespace from both ends. -/
def trimChars (l : List Char) : List Char :=
  ((l.dropWhile jsWhitespace).reverse.dropWhile jsWhitespace).reverse

/-- `String.prototype.trim`. -/
def jsTrim (s : String) : String := ⟨trimChars s.data⟩

/-- `String.prototype.toUpperCase` (ASCII mapping). -/
def jsUpper (s : String) : String := ⟨s.data.map Char.toUpper⟩

/-- The character class `[A-Z0-9_.-]` of the `sanitizeToken` regular expression
(`A`–`Z` are code points 65–90, `0`–`9` are 48–57). -/
def tokenChar (c : Char) : Bool :=
  (65 ≤ c.toNat && c.toNat ≤ 90) || (48 ≤ c.toNat && c.toNat ≤ 57) ||
    c == '_' || c == '.' || c == '-'

/-- `sanitizeToken`: trim, uppercase, then delete every character outside `[A-Z0-9_.-]`. -/
def sanitizeToken (value : String) : String :=
  ⟨((trimChars value.data).map Char.toUpper).filter tokenChar⟩

/-- A JavaScript `number`: either a finite value (modelled as a rational) or one
of the non-finite values rejected by `Number.isFinite`. -/
inductive JSNum where
  | nan
  | posInf
  | negInf
  | num (q : ℚ)
deriving DecidableEq

/-- `Math.floor` on a finite JavaScript number (floor division of the reduced fraction). -/
def ratFloor (q : ℚ) : Int := q.num.ediv (q.den : Int)

/-- `Math.round` (round half toward +∞) on a finite JavaScript number. -/
def jsRound (q : ℚ) : ℚ := ((ratFloor (q + 1/2) : Int) : ℚ)

/-- `normalizeUnitSize`: non-finite inputs become 1, otherwise `Math.max(1, Math.floor(value))`. -/
def normalizeUnitSize : JSNum → JSNum
  | .num q => .num ((max 1 (ratFloor q) : Int) : ℚ)
  | _ => .num 1

/-! ## Trading configuration -/

/-- `KalshiConfig` of `src/kalshi.ts`. -/
structure KalshiConfig where
  enabled : Bool
  moneylineEnabled : Bool
  spreadEnabled : Bool
  sport : String
  competition : String
  scope : String
  homeTeam : String
  homeCode : String
  awayTeam : String
  awayCode : String
  betUnitSize : JSNum
  testMode : Bool
deriving DecidableEq

/-- `Partial<KalshiConfig>`: every field optional (absent = key not present). -/
structure ConfigPatch where
  enabled : Option Bool
  moneylineEnabled : Option Bool
  spreadEnabled : Option Bool
  sport : Option String
  competition : Option String
  scope : Option String
  homeTeam : Option String
  homeCode : Option String
  awayCode : Option String
  awayTeam : Option String
  betUnitSize : Option JSNum
  testMode : Option Bool
deriving DecidableEq

/-- The module-level `defaultConfig` literal. -/
def defaultConfig : KalshiConfig :=
  { enabled := false
    moneylineEnabled := true
    spreadEnabled := false
    sport := "Basketball"
    competition := "Pro Basketball (M)"
    scope := "Games"
    homeTeam := ""
    homeCode := ""
    awayTeam := ""
    awayCode := ""
    betUnitSize := .num 1
    testMode := true }

/-- `updateKalshiConfig`: spread the partial over the running config (the spread
covers `enabled`; every other field is listed explicitly in the source), trimming
the free-text fields, sanitizing the team codes and normalizing the unit size. -/
def updateKalshiConfig (runtime : KalshiConfig) (p : ConfigPatch) : KalshiConfig :=
  { enabled := p.enabled.getD runtime.enabled
    moneylineEnabled := p.moneylineEnabled.getD runtime.moneylineEnabled
    spreadEnabled := p.spreadEnabled.getD runtime.spreadEnabled
    sport := jsTrim (p.sport.getD runtime.sport)
    competition := jsTrim (p.competition.getD runtime.competition)
    scope := jsTrim (p.scope.getD runtime.scope)
    homeTeam := jsTrim (p.homeTeam.getD runtime.homeTeam)
    awayTeam := jsTrim (p.awayTeam.getD runtime.awayTeam)
    homeCode := sanitizeToken (p.homeCode.getD runtime.homeCode)
    awayCode := sanitizeToken (p.awayCode.getD runtime.awayCode)
    betUnitSize := normalizeUnitSize (p.betUnitSize.getD runtime.betUnitSize)
    testMode := p.testMode.getD runtime.testMode }

/-- `loadConfigFromDisk` on the parse result of the config file (`none` models a
missing or corrupt file).  The parsed object is spread over the defaults and only
`betUnitSize` is re-normalized; no other field is sanitized on load. -/
def loadConfigFromDisk (disk : Option ConfigPatch) : KalshiConfig :=
  match disk with
  | none => defaultConfig
  | some parsed =>
    { enabled := parsed.enabled.getD defaultConfig.enabled
      moneylineEnabled := parsed.moneylineEnabled.getD defaultConfig.moneylineEnabled
      spreadEnabled := parsed.spreadEnabled.getD defaultConfig.spreadEnabled
      sport := parsed.sport.getD defaultConfig.sport
      competition := parsed.competition.getD defaultConfig.competition
      scope := parsed.scope.getD defaultConfig.scope
      homeTeam := parsed.homeTeam.getD defaultConfig.homeTeam
      awayTeam := parsed.awayTeam.getD defaultConfig.awayTeam
      homeCode := parsed.homeCode.getD defaultConfig.homeCode
      awayCode := parsed.awayCode.getD defaultConfig.awayCode
      betUnitSize := normalizeUnitSize (parsed.betUnitSize.getD defaultConfig.betUnitSize)
      testMode := parsed.testMode.getD defaultConfig.testMode }

/-! ## Markets and ticker resolution -/

/-- A market as consumed from the listing response (`coerceNum` collapses any
non-finite or non-numeric price field to `null`, so price hints are `Option ℚ`). -/
structure Market where
  ticker : String
  yes_bid : Option ℚ
  yes_ask : Option ℚ
  last_price : Option ℚ
deriving DecidableEq

/-- Split a character list at every `.` (the semantics of `split('.')` with a
single-character separator; `''.split('.')` is `['']`). -/
def splitDotAux : List Char → List Char → List String
  | [], acc => [⟨acc.reverse⟩]
  | c :: rest, acc =>
    if c = '.' then ⟨acc.reverse⟩ :: splitDotAux rest []
    else splitDotAux rest (c :: acc)

/-- `normalizeSegments`: uppercase the ticker and split on `.`. -/
def normalizeSegments (ticker : String) : List String :=
  splitDotAux (jsUpper ticker).data []

/-- `hasTeamCodes`: both (uppercased) team codes appear as ticker segments. -/
def hasTeamCodes (ticker homeCode awayCode : String) : Bool :=
  let segments := normalizeSegments ticker
  segments.contains (jsUpper homeCode) && segments.contains (jsUpper awayCode)

def isHorA (s : String) : Bool := s == "H" || s == "A"

/-- `extractSide`: last segment, then second-to-last, then first `H`/`A` segment anywhere. -/
def extractSide (segments : List String) : Option String :=
  match segments.reverse with
  | [] => none
  | lastSeg :: restRev =>
    if isHorA lastSeg then some lastSeg
    else
      match restRev with
      | secondLast :: _ =>
        if isHorA secondLast then some secondLast
        else segments.find? (fun s => isHorA s)
      | [] => segments.find? (fun s => isHorA s)

def isMoneyline (segments : List String) : Bool := segments.contains "ML"

def isSpread (segments : List String) : Bool := segments.contains "SP"

/-- `pickPrice`: mid of bid/ask when both are present, else bid, else ask, else last trade. -/
def pickPrice (m : Market) : Option ℚ :=
  match m.yes_bid, m.yes_ask, m.last_price with
  | some bid, some ask, _ => some (jsRound ((bid + ask) / 2))
  | some bid, none, _ => some bid
  | none, some ask, _ => some ask
  | none, none, some lastP => some lastP
  | none, none, none => none

/-- The candidate record `{ticker, segments, sideSeg}` built by both resolvers. -/
structure MlCandidate where
  ticker : String
  segments : List String
  sideSeg : Option String
deriving DecidableEq

/-- The map/filter pipeline of `placeMoneyline` (lines 281–287): candidates whose
ticker carries both team codes, an `ML` segment, and the requested side marker. -/
def mlCandidates (homeCode awayCode sideCode : String) (markets : List Market) : List MlCandidate :=
  (markets.map (fun m =>
      let segs := normalizeSegments m.ticker
      MlCandidate.mk m.ticker segs (extractSide segs))).filter
    (fun c => hasTeamCodes c.ticker homeCode awayCode && isMoneyline c.segments &&
      c.sideSeg == some sideCode)

/-- Moneyline ticker resolution (lines 289–291): sort candidates by ticker
(`localeCompare`, modelled as lexicographic order; JS sort is stable, modelled by
a stable insertion sort) and take the first. -/
def resolveMlTicker (homeCode awayCode sideCode : String) (markets : List Market) : Option String :=
  let sorted := List.insertionSort (fun a b : MlCandidate => a.ticker ≤ b.ticker)
    (mlCandidates homeCode awayCode sideCode markets)
  sorted.head?.map MlCandidate.ticker

/-- Claim wording for moneyline resolution: the lexicographically smallest ticker
among the candidates that pass the family/team-code/side filters. -/
def resolveMlSpec (homeCode awayCode sideCode : String) (markets : List Market) : Option String :=
  ((mlCandidates homeCode awayCode sideCode markets).map MlCandidate.ticker).min?

/-- A scored spread candidate `{ticker, price}`. -/
structure SpreadScored where
  ticker : String
  price : ℚ
deriving DecidableEq

/-- The spread candidate pipeline of `placeSpread` (lines 423–435): same corridor
filters with `SP` instead of `ML`, then score by `pickPrice`, dropping candidates
with an empty ticker or no numeric price. -/
def spreadScored (homeCode awayCode sideCode : String) (markets : List Market) : List SpreadScored :=
  let candidates := (markets.map (fun m =>
      let segs := normalizeSegments m.ticker
      (MlCandidate.mk m.ticker segs (extractSide segs), m))).filter
    (fun c => hasTeamCodes c.1.ticker homeCode awayCode && isSpread c.1.segments &&
      c.1.sideSeg == some sideCode)
  candidates.filterMap (fun c =>
    match pickPrice c.2 with
    | some price => if c.1.ticker == "" then none else some (SpreadScored.mk c.1.ticker price)
    | none => none)

/-- The spread pick (lines 464–469): prefer candidates priced in `[40,60]`, then
`reduce` to the candidate closest to 50 — a strict comparison, so on ties the
earlier-listed candidate wins. -/
def spreadPick (scored : List SpreadScored) : Option SpreadScored :=
  let inBand := scored.filter (fun s => decide (40 ≤ s.price) && decide (s.price ≤ 60))
  match (if inBand.isEmpty then scored else inBand) with
  | [] => none
  | best :: rest =>
    some (rest.foldl (fun best cur =>
      if |cur.price - 50| < |best.price - 50| then cur else best) best)

/-! ## Network model

Outbound HTTP is modelled by an environment: a function giving the response to
the i-th open-markets page request, and the response to the (single) order
placement request.  Each `signedFetch` call site appends a `NetCall` record to
the trace. -/

structure NetCall where
  method : String
  path : String
deriving DecidableEq

/-- Response to one page request of the markets listing: a parsed success body
(`ok` ⇔ HTTP 2xx), a non-2xx status with its body text, or a timeout abort. -/
inductive PageResp where
  | ok (markets : List Market) (cursor : Option String)
  | httpErr (status : Nat) (body : String)
  | timeout

/-- Response to the order-placement POST: an HTTP response (any status) or a
network/timeout failure surfacing as a thrown error with a message. -/
inductive OrderResp where
  | resp (status : Nat) (body : String)
  | netErr (msg : String)

/-- `response.ok`: status in the 2xx range. -/
def statusOk (status : Nat) : Bool := 200 ≤ status && status < 300

structure FetchEnv where
  pages : Nat → PageResp
  orderResp : OrderResp
  startIso : String
  endIso : String

/-- Credentials from the environment; `""` models both the unset and the empty
(falsy) case of `ACCESS_KEY` / `PRIVATE_KEY`. -/
structure Creds where
  accessKey : String
  privateKey : String

/-- `!ACCESS_KEY || !PRIVATE_KEY`. -/
def credsMissing (c : Creds) : Bool := c.accessKey == "" || c.privateKey == ""

/-- The query string built by `fetchOpenMarkets` (URL percent-encoding elided;
it affects no claim). -/
def marketsQueryString (sport competition scope startIso endIso : String)
    (cursor : Option String) : String :=
  let base := "type=sports&status=open&limit=500&sport=" ++ sport ++ "&competition=" ++
    competition ++ "&scope=" ++ scope ++ "&start_time=" ++ startIso ++ "&end_time=" ++ endIso
  match cursor with
  | some c => base ++ "&cursor=" ++ c
  | none => base

structure FetchOut where
  res : Except String (List Market)
  calls : List NetCall

/-- The paging loop of `fetchOpenMarkets`: `while (page < maxPages)` with
`maxPages = 10`, following the continuation cursor, returning early on 404,
throwing on any other non-2xx status or on timeout.  `fuel` is the remaining
page budget `maxPages - page`. -/
def fetchOpenMarketsLoop (pages : Nat → PageResp)
    (sport competition scope startIso endIso : String) :
    Nat → Nat → Option String → List Market → List NetCall → FetchOut
  | 0, _, _, all, calls => ⟨.ok all, calls⟩
  | fuel+1, pageIdx, cursor, all, calls =>
    let url := "/markets?" ++ marketsQueryString sport competition scope startIso endIso cursor
    let calls := calls ++ [⟨"GET", url⟩]
    match pages pageIdx with
    | .httpErr status _ =>
      if status = 404 then ⟨.ok all, calls⟩
      else ⟨.error ("markets-fetch-failed:" ++ toString status), calls⟩
    | .timeout => ⟨.error "markets-fetch-timeout", calls⟩
    | .ok ms cursorNext =>
      let all := all ++ ms
      match cursorNext with
      | some c =>
        fetchOpenMarketsLoop pages sport competition scope startIso endIso fuel (pageIdx + 1)
          (some c) all calls
      | none => ⟨.ok all, calls⟩

/-- `fetchOpenMarkets` (lines 536–595). -/
def fetchOpenMarkets (pages : Nat → PageResp)
    (sport competition scope startIso endIso : String) : FetchOut :=
  fetchOpenMarketsLoop pages sport competition scope startIso endIso 10 0 none [] []

/-! ## Results, orders and event logs -/

structure KalshiResult where
  ok : Bool
  skippedReason : Option String
  error : Option String
deriving DecidableEq

inductive TriggerSide where
  | home
  | away
  | cancel
deriving DecidableEq

/-- The order body `{ticker, side:'yes', action:'buy', count, type:'market'}`. -/
structure OrderBody where
  ticker : String
  side : String
  action : String
  count : JSNum
  type : String
deriving DecidableEq

/-- The `body` payloads recorded to the test event log. -/
inductive TestBody where
  | order (body : OrderBody)
  | orderWithPrice (body : OrderBody) (observed_price : ℚ)
  | note (text : String)
  | errorNote (text : String) (error : String)
  | rejected (error : String) (response : String) (observed_price : ℚ)
deriving DecidableEq

/-- A test-log entry (the `at` wall-clock field is elided). -/
structure TestEvent where
  ticker : String
  side : TriggerSide
  count : JSNum
  body : TestBody
deriving DecidableEq

/-- A live-log entry (the `at` field and the diagnostic `details` samples elided). -/
structure LiveEvent where
  side : TriggerSide
  kind : String
  ticker : Option String
  count : Option JSNum
  status : Option Nat
  responseBody : Option String
  error : Option String
  note : Option String
deriving DecidableEq

/-- Output of one handler run: the returned (or thrown) result, the test and live
log entries appended during the run, and the trace of outbound calls. -/
structure KOut where
  res : Except String KalshiResult
  testEvents : List TestEvent
  liveEvents : List LiveEvent
  calls : List NetCall

def sideCodeOf (side : TriggerSide) : String :=
  if side = TriggerSide.home then "H" else "A"

def missingCredsMsg : String := "Missing KALSHI_ACCESS_KEY or KALSHI_PRIVATE_KEY"

/-- The `!sport || !competition || !scope || !homeCode || !awayCode` guard shared
by `placeMoneyline` and `placeSpread` (trims and sanitizations as in the source). -/
def matchupMetaMissing (cfg : KalshiConfig) : Bool :=
  jsTrim cfg.sport == "" || jsTrim cfg.competition == "" || jsTrim cfg.scope == "" ||
    sanitizeToken cfg.homeCode == "" || sanitizeToken cfg.awayCode == ""

/-- `const text = rawText && rawText.trim() ? rawText : '(empty body)'`. -/
def rejectionText (rawText : String) : String :=
  if jsTrim rawText == "" then "(empty body)" else rawText

/-- `placeMoneyline` (lines 253–350). -/
def placeMoneyline (env : FetchEnv) (creds : Creds) (cfg : KalshiConfig)
    (side : TriggerSide) : KOut :=
  if matchupMetaMissing cfg then
    ⟨.ok ⟨true, some "missing-ticker", none⟩, [], [], []⟩
  else
    let sideCode := sideCodeOf side
    let fetched := fetchOpenMarkets env.pages (jsTrim cfg.sport) (jsTrim cfg.competition)
      (jsTrim cfg.scope) env.startIso env.endIso
    match fetched.res with
    | .error e => ⟨.error e, [], [], fetched.calls⟩
    | .ok markets =>
      if markets.isEmpty then
        ⟨.ok ⟨true, some "no-markets", none⟩, [],
          [⟨side, "moneyline", none, some cfg.betUnitSize, none, none, none, some "no-markets"⟩],
          fetched.calls⟩
      else
        match resolveMlTicker (sanitizeToken cfg.homeCode) (sanitizeToken cfg.awayCode)
            sideCode markets with
        | none =>
          ⟨.ok ⟨true, some "no-moneyline", none⟩, [],
            [⟨side, "moneyline", none, some cfg.betUnitSize, none, none, none,
              some ("no-moneyline-market (" ++ sanitizeToken cfg.homeCode ++ "/" ++
                sanitizeToken cfg.awayCode ++ ")")⟩],
            fetched.calls⟩
        | some ticker =>
          let orderBody : OrderBody := ⟨ticker, "yes", "buy", cfg.betUnitSize, "market"⟩
          if cfg.testMode then
            ⟨.ok ⟨true, some "test-mode", none⟩,
              [⟨ticker, side, cfg.betUnitSize, .order orderBody⟩], [], fetched.calls⟩
          else if credsMissing creds then
            ⟨.ok ⟨false, some "missing-credentials", some missingCredsMsg⟩, [], [], fetched.calls⟩
          else
            let calls := fetched.calls ++ [⟨"POST", "/portfolio/orders"⟩]
            match env.orderResp with
            | .netErr msg =>
              ⟨.ok ⟨false, none, some msg⟩, [],
                [⟨side, "moneyline", some ticker, some cfg.betUnitSize, none, none, some msg,
                  none⟩], calls⟩
            | .resp status bodyText =>
              if statusOk status then
                ⟨.ok ⟨true, none, none⟩, [],
                  [⟨side, "moneyline", some ticker, some cfg.betUnitSize, some status, none,
                    none, none⟩], calls⟩
              else
                let text := rejectionText bodyText
                ⟨.ok ⟨false, none, some ("Kalshi request failed (" ++ toString status ++ ")")⟩,
                  [],
                  [⟨side, "moneyline", some ticker, some cfg.betUnitSize, some status, some text,
                    none, none⟩], calls⟩

/-- `placeSpread` (lines 352–534).  The whole market fetch / pick / order block is
inside a `try`, so fetch failures are caught and reported as a failed result
rather than re-thrown. -/
def placeSpread (env : FetchEnv) (creds : Creds) (cfg : KalshiConfig)
    (side : TriggerSide) : KOut :=
  if matchupMetaMissing cfg then
    ⟨.ok ⟨true, some "missing-event-ticker", none⟩,
      if cfg.testMode then
        [⟨"unknown", side, cfg.betUnitSize, .note "spread skipped: missing matchup metadata"⟩]
      else [], [], []⟩
  else
    let sport := jsTrim cfg.sport
    let competition := jsTrim cfg.competition
    let scope := jsTrim cfg.scope
    let homeCode := sanitizeToken cfg.homeCode
    let awayCode := sanitizeToken cfg.awayCode
    let sideCode := sideCodeOf side
    if !cfg.testMode && credsMissing creds then
      ⟨.ok ⟨false, some "missing-credentials", some missingCredsMsg⟩,
        if cfg.testMode then
          [⟨"unknown", side, cfg.betUnitSize, .note "spread skipped: missing credentials"⟩]
        else [], [], []⟩
    else if cfg.testMode && credsMissing creds then
      let fallbackTicker := sport ++ "." ++ awayCode ++ "." ++ homeCode ++ ".SP." ++ sideCode
      ⟨.ok ⟨true, some "test-mode-no-creds", none⟩,
        [⟨fallbackTicker, side, cfg.betUnitSize,
          .note "test-mode no credentials; markets not fetched"⟩], [], []⟩
    else
      let fetched := fetchOpenMarkets env.pages sport competition scope env.startIso env.endIso
      match fetched.res with
      | .error message =>
        ⟨.ok ⟨false, none, some message⟩,
          if cfg.testMode then
            [⟨"unknown", side, cfg.betUnitSize, .errorNote "spread error" message⟩]
          else [],
          [⟨side, "spread", none, some cfg.betUnitSize, none, none, some message, none⟩],
          fetched.calls⟩
      | .ok markets =>
        if markets.isEmpty then
          ⟨.ok ⟨true, some "no-markets", none⟩,
            if cfg.testMode then
              [⟨sport ++ "." ++ competition ++ "." ++ scope, side, cfg.betUnitSize,
                .note "spread skipped: no markets found"⟩]
            else [],
            [⟨side, "spread", none, some cfg.betUnitSize, none, none, none, some "no-markets"⟩],
            fetched.calls⟩
        else
          match spreadPick (spreadScored homeCode awayCode sideCode markets) with
          | none =>
            ⟨.ok ⟨true, some "no-spreads", none⟩,
              if cfg.testMode then
                [⟨sport ++ "." ++ competition ++ "." ++ scope, side, cfg.betUnitSize,
                  .note "spread skipped: no spreads found"⟩]
              else [],
              [⟨side, "spread", none, some cfg.betUnitSize, none, none, none, some "no-spreads"⟩],
              fetched.calls⟩
          | some pick =>
            let orderBody : OrderBody := ⟨pick.ticker, "yes", "buy", cfg.betUnitSize, "market"⟩
            if cfg.testMode then
              ⟨.ok ⟨true, some "test-mode", none⟩,
                [⟨pick.ticker, side, cfg.betUnitSize, .orderWithPrice orderBody pick.price⟩],
                [], fetched.calls⟩
            else
              let calls := fetched.calls ++ [⟨"POST", "/portfolio/orders"⟩]
              match env.orderResp with
              | .netErr message =>
                ⟨.ok ⟨false, none, some message⟩,
                  if cfg.testMode then
                    [⟨pick.ticker, side, cfg.betUnitSize, .errorNote "spread error" message⟩]
                  else [],
                  [⟨side, "spread", some pick.ticker, some cfg.betUnitSize, none, none,
                    some message, none⟩], calls⟩
              | .resp status bodyText =>
                if statusOk status then
                  ⟨.ok ⟨true, none, none⟩, [],
                    [⟨side, "spread", some pick.ticker, some cfg.betUnitSize, some status, none,
                      none, some ("price~" ++ toString pick.price)⟩], calls⟩
                else
                  let text := rejectionText bodyText
                  ⟨.ok ⟨false, none,
                      some ("Kalshi request failed (" ++ toString status ++ ")")⟩,
                    if cfg.testMode then
                      [⟨pick.ticker, side, cfg.betUnitSize,
                        .rejected ("rejected " ++ toString status) text pick.price⟩]
                    else [],
                    [⟨side, "spread", some pick.ticker, some cfg.betUnitSize, some status,
                      some text, none, none⟩], calls⟩

/-- Line 136: overall success iff every collected per-kind result is `ok`. -/
def combineResults (results : List KalshiResult) : KalshiResult :=
  if results.all (fun r => r.ok) then ⟨true, none, none⟩
  else ⟨false, none, some "one-or-more-orders-failed"⟩

/-- `handleKalshiTrigger` (lines 112–137): cancel and disabled short-circuits,
then run each enabled kind in order (an exception from an `await` propagates and
aborts the rest), then combine. -/
def handleKalshiTrigger (envMl envSp : FetchEnv) (creds : Creds) (cfg : KalshiConfig)
    (side : TriggerSide) : KOut :=
  if side = TriggerSide.cancel then ⟨.ok ⟨true, some "cancel-action", none⟩, [], [], []⟩
  else if !cfg.enabled then ⟨.ok ⟨true, some "module-disabled", none⟩, [], [], []⟩
  else if cfg.moneylineEnabled then
    let o1 := placeMoneyline envMl creds cfg side
    match o1.res with
    | .error e => ⟨.error e, o1.testEvents, o1.liveEvents, o1.calls⟩
    | .ok r1 =>
      if cfg.spreadEnabled then
        let o2 := placeSpread envSp creds cfg side
        match o2.res with
        | .error e =>
          ⟨.error e, o1.testEvents ++ o2.testEvents, o1.liveEvents ++ o2.liveEvents,
            o1.calls ++ o2.calls⟩
        | .ok r2 =>
          ⟨.ok (combineResults [r1, r2]), o1.testEvents ++ o2.testEvents,
            o1.liveEvents ++ o2.liveEvents, o1.calls ++ o2.calls⟩
      else ⟨.ok (combineResults [r1]), o1.testEvents, o1.liveEvents, o1.calls⟩
  else if cfg.spreadEnabled then
    let o2 := placeSpread envSp creds cfg side
    match o2.res with
    | .error e => ⟨.error e, o2.testEvents, o2.liveEvents, o2.calls⟩
    | .ok r2 => ⟨.ok (combineResults [r2]), o2.testEvents, o2.liveEvents, o2.calls⟩
  else ⟨.ok ⟨true, some "no-modules-enabled", none⟩, [], [], []⟩

/-! ## Signed request construction (`signedFetch`, lines 139–168)

The pure request-building half of `signedFetch`: URL path/query split, the
GET/HEAD body rule, the canonical signature payload and the transport body.
The only body values ever passed by this module are an order object or the
empty string `''` (falsy), modelled as `Option OrderBody`. -/

/-- Split a character list at the first `?`, keeping the `?` in the second part. -/
def splitAtQuestion : List Char → List Char × List Char
  | [] => ([], [])
  | c :: rest =>
    if c = '?' then ([], c :: rest)
    else
      let r := splitAtQuestion rest
      (c :: r.1, r.2)

/-- `url.pathname` and `url.search` of `new URL(pathname, API_BASE)` for the
relative pathnames used by this module (`url.search` is `''` when there is no
query, and carries the leading `?` otherwise). -/
def splitPathQuery (pathname : String) : String × String :=
  let r := splitAtQuestion pathname.data
  (⟨r.1⟩, ⟨r.2⟩)

/-- `JSON.stringify` of a JavaScript number (finite integers as printed by JS;
non-finite values serialize as `null`). -/
def jsNumJson (v : JSNum) : String :=
  match v with
  | .num q => if q.den = 1 then toString q.num else toString q
  | _ => "null"

/-- `JSON.stringify` of an order body (key order is insertion order). -/
def orderBodyJson (b : OrderBody) : String :=
  "\x7b\"ticker\":\"" ++ b.ticker ++ "\",\"side\":\"" ++ b.side ++ "\",\"action\":\"" ++
    b.action ++ "\",\"count\":" ++ jsNumJson b.count ++ ",\"type\":\"" ++ b.type ++ "\"\x7d"

/-- `method.toUpperCase() !== 'GET' && method.toUpperCase() !== 'HEAD'`. -/
def isBodyAllowed (method : String) : Bool :=
  !(jsUpper method == "GET") && !(jsUpper method == "HEAD")

structure SignedRequest where
  urlPath : String
  urlSearch : String
  serializedBody : String
  signaturePayload : String
  transportBody : Option String
deriving DecidableEq

/-- The deterministic core of `signedFetch`: serialize the body when the method
allows one, concatenate `timestamp + METHOD + path + search + serializedBody`,
and attach the body to the transport options only when allowed and non-empty. -/
def buildSignedRequest (pathname method : String) (body : Option OrderBody)
    (timestamp : String) : SignedRequest :=
  let pq := splitPathQuery pathname
  let allowed := isBodyAllowed method
  let serializedBody :=
    if allowed then (match body with | some b => orderBodyJson b | none => "") else ""
  let signaturePayload := timestamp ++ jsUpper method ++ pq.1 ++ pq.2 ++ serializedBody
  let transportBody := if allowed && !(serializedBody == "") then some serializedBody else none
  ⟨pq.1, pq.2, serializedBody, signaturePayload, transportBody⟩

/-! ## The signature primitive

Modelled from the spec: the `node:crypto` signing call is not part of this
repository; the spec fixes the algorithm as "RSA with SHA-256 digest, PSS
padding, salt length equal to the digest length. Output is base64-encoded",
which is RSASSA-PSS as standardized in RFC 8017 (EMSA-PSS encoding with
MGF1/SHA-256, then RSA signature primitive, here with the private exponent
applied as `m ^ d mod n`).  The PSS salt — fresh randomness drawn by the
library on every invocation — is an explicit argument. -/

def w32 : Nat := 4294967296

def rotr32 (k n : Nat) : Nat := ((n >>> k) ||| (n <<< (32 - k))) % w32

def shaCh (x y z : Nat) : Nat := (x &&& y) ^^^ ((x ^^^ 4294967295) &&& z)

def shaMaj (x y z : Nat) : Nat := (x &&& y) ^^^ (x &&& z) ^^^ (y &&& z)

def bigSigma0 (x : Nat) : Nat := rotr32 2 x ^^^ rotr32 13 x ^^^ rotr32 22 x

def bigSigma1 (x : Nat) : Nat := rotr32 6 x ^^^ rotr32 11 x ^^^ rotr32 25 x

def smallSigma0 (x : Nat) : Nat := rotr32 7 x ^^^ rotr32 18 x ^^^ (x >>> 3)

def smallSigma1 (x : Nat) : Nat := rotr32 17 x ^^^ rotr32 19 x ^^^ (x >>> 10)

/-- The 64 SHA-256 round constants of FIPS 180-4, written in decimal. -/
def shaK : List Nat :=
  [1116352408, 1899447441, 3049323471, 3921009573, 961987163, 1508970993,
   2453635748, 2870763221, 3624381080, 310598401, 607225278, 1426881987,
   1925078388, 2162078206, 2614888103, 3248222580, 3835390401, 4022224774,
   264347078, 604807628, 770255983, 1249150122, 1555081692, 1996064986,
   2554220882, 2821834349, 2952996808, 3210313671, 3336571891, 3584528711,
   113926993, 338241895, 666307205, 773529912, 1294757372, 1396182291,
   1695183700, 1986661051, 2177026350, 2456956037, 2730485921, 2820302411,
   3259730800, 3345764771, 3516065817, 3600352804, 4094571909, 275423344,
   430227734, 506948616, 659060556, 883997877, 958139571, 1322822218,
   1537002063, 1747873779, 1955562222, 2024104815, 2227730452, 2361852424,
   2428436474, 2756734187, 3204031479, 3329325298]

/-- The SHA-256 initial hash state of FIPS 180-4, written in decimal. -/
def shaH0 : List Nat :=
  [1779033703, 3144134277, 1013904242, 2773480762,
   1359893119, 2600822924, 528734635, 1541459225]

/-- Big-endian bytes to 32-bit words. -/
def bytesToWords : List Nat → List Nat
  | a :: b :: c :: d :: rest => (((a * 256 + b) * 256 + c) * 256 + d) :: bytesToWords rest
  | _ => []

/-- Extend the 16-word block to the 64-word message schedule. -/
def extendSchedule : List Nat → Nat → List Nat
  | w, 0 => w
  | w, f+1 =>
    let i := w.length
    let wi := (smallSigma1 (w.getD (i-2) 0) + w.getD (i-7) 0 + smallSigma0 (w.getD (i-15) 0) +
      w.getD (i-16) 0) % w32
    extendSchedule (w ++ [wi]) f

structure ShaState where
  a : Nat
  b : Nat
  c : Nat
  d : Nat
  e : Nat
  f : Nat
  g : Nat
  h : Nat

def shaRound (st : ShaState) (kw : Nat × Nat) : ShaState :=
  let t1 := (st.h + bigSigma1 st.e + shaCh st.e st.f st.g + kw.1 + kw.2) % w32
  let t2 := (bigSigma0 st.a + shaMaj st.a st.b st.c) % w32
  ⟨(t1 + t2) % w32, st.a, st.b, st.c, (st.d + t1) % w32, st.e, st.f, st.g⟩

/-- RFC 8017 I2OSP: nonnegative integer to big-endian octet string of given length. -/
def i2osp (x : Nat) : Nat → List Nat
  | 0 => []
  | n+1 => i2osp (x / 256) n ++ [x % 256]

/-- RFC 8017 OS2IP: big-endian octet string to nonnegative integer. -/
def os2ip (l : List Nat) : Nat := l.foldl (fun acc b => acc * 256 + b) 0

def compressBlock (hs : List Nat) (block : List Nat) : List Nat :=
  let w := extendSchedule (bytesToWords block) 48
  let init : ShaState :=
    ⟨hs.getD 0 0, hs.getD 1 0, hs.getD 2 0, hs.getD 3 0, hs.getD 4 0, hs.getD 5 0, hs.getD 6 0,
      hs.getD 7 0⟩
  let fin := (shaK.zip w).foldl shaRound init
  [(hs.getD 0 0 + fin.a) % w32, (hs.getD 1 0 + fin.b) % w32, (hs.getD 2 0 + fin.c) % w32,
   (hs.getD 3 0 + fin.d) % w32, (hs.getD 4 0 + fin.e) % w32, (hs.getD 5 0 + fin.f) % w32,
   (hs.getD 6 0 + fin.g) % w32, (hs.getD 7 0 + fin.h) % w32]

/-- SHA-256 padding: `0x80`, zeros to 56 mod 64, then the 64-bit big-endian bit length. -/
def padMessage (msg : List Nat) : List Nat :=
  let len := msg.length
  let zeros := (55 + 64 - len % 64) % 64
  msg ++ [128] ++ List.replicate zeros 0 ++ i2osp (8 * len) 8

def chunk64 : Nat → List Nat → List (List Nat)
  | 0, _ => []
  | _, [] => []
  | f+1, l => l.take 64 :: chunk64 f (l.drop 64)

/-- SHA-256 of a byte string (FIPS 180-4). -/
def sha256 (msg : List Nat) : List Nat :=
  let padded := padMessage msg
  let blocks := chunk64 padded.length padded
  let hs := blocks.foldl compressBlock shaH0
  (hs.map (fun w => i2osp w 4)).flatten

def xorBytes (a b : List Nat) : List Nat := List.zipWith (fun x y => x ^^^ y) a b

/-- MGF1 with SHA-256 (RFC 8017 appendix B.2.1). -/
def mgf1 (seed : List Nat) (maskLen : Nat) : List Nat :=
  (((List.range ((maskLen + 31) / 32)).map (fun c => sha256 (seed ++ i2osp c 4))).flatten).take
    maskLen

/-- EMSA-PSS-ENCODE (RFC 8017 section 9.1.1) with SHA-256 and an explicit salt. -/
def emsaPssEncode (msg salt : List Nat) (emBits : Nat) : List Nat :=
  let hLen := 32
  let sLen := salt.length
  let emLen := (emBits + 7) / 8
  let mHash := sha256 msg
  let mPrime := List.replicate 8 0 ++ mHash ++ salt
  let h := sha256 mPrime
  let ps := List.replicate (emLen - sLen - hLen - 2) 0
  let db := ps ++ [1] ++ salt
  let dbMask := mgf1 h (emLen - hLen - 1)
  let maskedDB := xorBytes db dbMask
  let excess := 8 * emLen - emBits
  let masked :=
    match maskedDB with
    | [] => []
    | b :: rest => (b % 2 ^ (8 - excess)) :: rest
  masked ++ h ++ [188]

def b64Alphabet : List Char :=
  "ABCDEFGHIJKLMNOPQRSTUVWXYZabcdefghijklmnopqrstuvwxyz0123456789+/".data

def b64CharOf (n : Nat) : Char := b64Alphabet.getD n 'A'

def b64Chunks : List Nat → List Char
  | [] => []
  | [a] => [b64CharOf (a >>> 2), b64CharOf ((a % 4) <<< 4), '=', '=']
  | [a, b] =>
    [b64CharOf (a >>> 2), b64CharOf (((a % 4) <<< 4) + (b >>> 4)), b64CharOf ((b % 16) <<< 2), '=']
  | a :: b :: c :: rest =>
    b64CharOf (a >>> 2) :: b64CharOf (((a % 4) <<< 4) + (b >>> 4)) ::
      b64CharOf (((b % 16) <<< 2) + (c >>> 6)) :: b64CharOf (c % 64) :: b64Chunks rest

/-- Standard base64 encoding (`Buffer.prototype.toString('base64')`). -/
def base64Encode (bytes : List Nat) : String := ⟨b64Chunks bytes⟩

/-- Bit length of a natural number (fuel-driven so it reduces definitionally). -/
def bitLenFuel : Nat → Nat → Nat
  | 0, _ => 0
  | f+1, n => if n = 0 then 0 else bitLenFuel f (n / 2) + 1

def bitLen (n : Nat) : Nat := bitLenFuel n n

/-- RSASSA-PSS signature, base64-encoded, for an RSA private key with modulus `n`
and private exponent `d`, at a given salt. -/
def rsaPssSignB64 (n d : Nat) (msg salt : List Nat) : String :=
  let modBits := bitLen n
  let em := emsaPssEncode msg salt (modBits - 1)
  let m := os2ip em
  let s := (m ^ d) % n
  let k := (modBits + 7) / 8
  base64Encode (i2osp s k)

/-- UTF-8 bytes of the (ASCII) canonical payload string. -/
def strBytes (s : String) : List Nat := s.data.map Char.toNat

/-- The full signing pipeline of `signedFetch`: build the canonical payload for
`(timestamp, method, pathname/query, body)` and sign it with RSASSA-PSS under
`(n, d)` at the given salt. -/
def signedFetchSignature (timestamp method pathname : String) (body : Option OrderBody)
    (n d : Nat) (salt : List Nat) : String :=
  rsaPssSignB64 n d (strBytes (buildSignedRequest pathname method body timestamp).signaturePayload)
    salt

/-! ## The WebSocket message handler (`src/server.ts`, lines 311–405) -/

inductive Role where
  | control
  | display
deriving DecidableEq

/-- A message that parsed against the inbound schema. -/
inductive InboundMessage where
  | register (role : Role)
  | trigger (side : TriggerSide)
  | ping
deriving DecidableEq

/-- Messages sent back to the originating connection. -/
inductive OutMessage where
  | welcome (id : String)
  | errorMsg (message : String)
  | pong (atTime : Nat)
  | registered (role : Role) (displayCount controlCount : Nat)
  | ack (atTime : Nat)
deriving DecidableEq

structure ClientRecord where
  id : String
  role : Option Role
  isAlive : Bool
deriving DecidableEq

def countByRole (clients : List ClientRecord) (role : Role) : Nat :=
  (clients.filter (fun c => c.role == some role)).length

/-- The `flash` payload broadcast to display clients (`by` renamed `byId`). -/
structure FlashPayload where
  side : TriggerSide
  atTime : Nat
  byId : String
deriving DecidableEq

/-- Everything one `message` event does: replies to the sender, the optional
flash broadcast to displays, whether a status broadcast fires, the connection's
role afterwards, and the side forwarded to the Kalshi integration (if any). -/
structure MessageOutcome where
  toSelf : List OutMessage
  flash : Option FlashPayload
  statusBroadcast : Bool
  newRole : Option Role
  kalshiSide : Option TriggerSide
deriving DecidableEq

/-- Update the registering client's role in the registry before counting. -/
def setRole (clients : List ClientRecord) (id : String) (role : Role) : List ClientRecord :=
  clients.map (fun c => if c.id == id then { c with role := some role } else c)

/-- The `ws.on('message')` handler body: `none` models a payload the schema
rejected.  Mirrors lines 336–392 of `src/server.ts`. -/
def processMessage (clients : List ClientRecord) (client : ClientRecord) (now : Nat)
    (parsed : Option InboundMessage) : MessageOutcome :=
  match parsed with
  | none => ⟨[.errorMsg "invalid-payload"], none, false, client.role, none⟩
  | some .ping => ⟨[.pong now], none, false, client.role, none⟩
  | some (.register role) =>
    let updated := setRole clients client.id role
    ⟨[.registered role (countByRole updated Role.display) (countByRole updated Role.control)],
      none, true, some role, none⟩
  | some (.trigger side) =>
    if client.role = none then
      ⟨[.errorMsg "role-not-registered"], none, false, client.role, none⟩
    else if client.role ≠ some Role.control then
      ⟨[.errorMsg "not-authorized"], none, false, client.role, none⟩
    else
      ⟨[.ack now], some ⟨side, now, client.id⟩, false, client.role,
        if side = TriggerSide.cancel then none else some side⟩

/-! ## Theorems -/

/-- Sanity check of the SHA-256 model against the FIPS 180-4 test vector for "abc". -/
example : sha256 [97, 98, 99] =
    [186, 120, 22, 191, 143, 1, 207, 234, 65, 65,
     64, 222, 93, 174, 34, 35, 176, 3, 97, 163,
     150, 23, 122, 156, 180, 16, 255, 97, 242, 0,
     21, 173] := by decide

/-- Sanity check of the base64 model (RFC 4648 test vector). -/
example : base64Encode [77, 97, 110] = "TWFu" := by decide

/-! ### String / number helper lemmas -/

theorem dropWhile_self_idem (p : α → Bool) (l : List α) :
    (l.dropWhile p).dropWhile p = l.dropWhile p := by
  induction l with
  | nil => rfl
  | cons a l ih =>
    by_cases h : p a = true
    · simp [List.dropWhile_cons, h, ih]
    · simp [List.dropWhile_cons, h]

theorem head?_dropWhile_false (p : α → Bool) (l : List α) :
    ∀ a, (l.dropWhile p).head? = some a → p a = false := by
  induction l with
  | nil => intro a h; simp at h
  | cons b l ih =>
    intro a h
    by_cases hb : p b = true
    · exact ih a (by simpa [List.dropWhile_cons, hb] using h)
    · simp [List.dropWhile_cons, hb] at h
      rw [← h]
      simpa using hb

theorem dropWhile_eq_self_of_head (p : α → Bool) (l : List α)
    (h : ∀ a, l.head? = some a → p a = false) : l.dropWhile p = l := by
  cases l with
  | nil => rfl
  | cons a l => simp [List.dropWhile_cons, h a rfl]

theorem dropWhile_eq_self_of_all (p : α → Bool) (l : List α)
    (h : ∀ a ∈ l, p a = false) : l.dropWhile p = l :=
  dropWhile_eq_self_of_head p l (fun a ha => h a (by cases l <;> simp_all))

theorem getLast?_dropWhile (p : α → Bool) (l : List α) (h : l.dropWhile p ≠ []) :
    (l.dropWhile p).getLast? = l.getLast? := by
  induction l with
  | nil => simp at h
  | cons a l ih =>
    by_cases ha : p a = true
    · have hdw : (a :: l).dropWhile p = l.dropWhile p := by simp [List.dropWhile_cons, ha]
      rw [hdw] at h ⊢
      rw [ih h]
      cases l with
      | nil => simp at h
      | cons b t => simp [List.getLast?_cons_cons]
    · simp [List.dropWhile_cons, ha]

theorem trimChars_head_false (l : List Char) :
    ∀ a, (trimChars l).head? = some a → jsWhitespace a = false := by
  intro a h
  unfold trimChars at h
  rw [List.head?_reverse] at h
  have hne : ((l.dropWhile jsWhitespace).reverse.dropWhile jsWhitespace) ≠ [] := by
    intro hnil; rw [hnil] at h; simp at h
  rw [getLast?_dropWhile _ _ hne, List.getLast?_reverse] at h
  exact head?_dropWhile_false _ _ a h

theorem trimChars_getLast_false (l : List Char) :
    ∀ a, (trimChars l).getLast? = some a → jsWhitespace a = false := by
  intro a h
  unfold trimChars at h
  rw [List.getLast?_reverse] at h
  exact head?_dropWhile_false _ _ a h

theorem trimChars_eq_self (l : List Char)
    (h1 : ∀ a, l.head? = some a → jsWhitespace a = false)
    (h2 : ∀ a, l.getLast? = some a → jsWhitespace a = false) : trimChars l = l := by
  unfold trimChars
  rw [dropWhile_eq_self_of_head _ _ h1]
  rw [dropWhile_eq_self_of_head _ _ (fun a ha => h2 a (by rwa [List.head?_reverse] at ha))]
  exact List.reverse_reverse l

theorem trimChars_eq_self_of_all (l : List Char) (h : ∀ a ∈ l, jsWhitespace a = false) :
    trimChars l = l :=
  trimChars_eq_self l
    (fun a ha => h a (by cases l <;> simp_all))
    (fun a ha => h a (List.mem_of_mem_getLast? ha))

theorem trimChars_idem (l : List Char) : trimChars (trimChars l) = trimChars l :=
  trimChars_eq_self _ (trimChars_head_false l) (trimChars_getLast_false l)

theorem jsTrim_idem (s : String) : jsTrim (jsTrim s) = jsTrim s :=
  congrArg String.mk (trimChars_idem s.data)

theorem tokenChar_not_ws (c : Char) (h : tokenChar c = true) : jsWhitespace c = false := by
  by_cases hw : jsWhitespace c = true
  · exfalso
    simp only [jsWhitespace, Bool.or_eq_true, beq_iff_eq] at hw
    rcases hw with ((h1 | h1) | h1) | h1 <;> subst h1 <;> simp [tokenChar] at h
  · simpa using hw

theorem tokenChar_toUpper (c : Char) (h : tokenChar c = true) : Char.toUpper c = c := by
  simp only [tokenChar, Bool.or_eq_true, Bool.and_eq_true, decide_eq_true_eq,
    beq_iff_eq] at h
  rcases h with (((⟨h1, h2⟩ | ⟨h1, h2⟩) | h1) | h1) | h1
  · have hn : ¬(c.toNat ≥ 97 ∧ c.toNat ≤ 122) := by omega
    simp [Char.toUpper, hn]
  · have hn : ¬(c.toNat ≥ 97 ∧ c.toNat ≤ 122) := by omega
    simp [Char.toUpper, hn]
  · subst h1; decide
  · subst h1; decide
  · subst h1; decide

theorem map_toUpper_eq_self (l : List Char) (h : ∀ a ∈ l, tokenChar a = true) :
    l.map Char.toUpper = l := by
  induction l with
  | nil => rfl
  | cons a l ih =>
    simp only [List.map_cons]
    rw [tokenChar_toUpper a (h a (List.mem_cons_self a l)),
      ih (fun b hb => h b (List.mem_cons_of_mem a hb))]

theorem sanitizeToken_idem (s : String) : sanitizeToken (sanitizeToken s) = sanitizeToken s := by
  unfold sanitizeToken
  apply congrArg String.mk
  have hmem : ∀ a ∈ (((trimChars s.data).map Char.toUpper).filter tokenChar),
      tokenChar a = true := fun a ha => List.of_mem_filter ha
  rw [trimChars_eq_self_of_all _ (fun a ha => tokenChar_not_ws a (hmem a ha))]
  rw [map_toUpper_eq_self _ hmem]
  exact List.filter_eq_self.mpr hmem

theorem ratFloor_intCast (k : Int) : ratFloor ((k : Int) : ℚ) = k := by
  simp only [ratFloor, Rat.num_intCast, Rat.den_intCast, Nat.cast_one]
  exact Int.ediv_one k

theorem normalizeUnitSize_idem (v : JSNum) :
    normalizeUnitSize (normalizeUnitSize v) = normalizeUnitSize v := by
  cases v with
  | num q =>
    simp only [normalizeUnitSize, ratFloor_intCast]
    rw [← max_assoc, max_self]
  | nan => decide
  | posInf => decide
  | negInf => decide

theorem getD_getD (o : Option α) (x : α) : o.getD (o.getD x) = o.getD x := by
  cases o <;> rfl

/-- C9: applying the same partial configuration update twice yields the same
configuration (and hence the same persisted JSON) as applying it once. -/
theorem updateKalshiConfig_idempotent (c : KalshiConfig) (p : ConfigPatch) :
    updateKalshiConfig (updateKalshiConfig c p) p = updateKalshiConfig c p := by
  unfold updateKalshiConfig
  simp only [KalshiConfig.mk.injEq]
  refine ⟨getD_getD _ _, getD_getD _ _, getD_getD _ _, ?_, ?_, ?_, ?_, ?_, ?_, ?_, ?_,
    getD_getD _ _⟩
  · cases p.sport <;> simp [jsTrim_idem]
  · cases p.competition <;> simp [jsTrim_idem]
  · cases p.scope <;> simp [jsTrim_idem]
  · cases p.homeTeam <;> simp [jsTrim_idem]
  · cases p.homeCode <;> simp [sanitizeToken_idem]
  · cases p.awayTeam <;> simp [jsTrim_idem]
  · cases p.awayCode <;> simp [sanitizeToken_idem]
  · cases p.betUnitSize <;> simp [normalizeUnitSize_idem]

/-- `betUnitSize` is a positive integer. -/
def posIntJS : JSNum → Bool
  | .num q => q.den == 1 && decide (1 ≤ q.num)
  | _ => false

/-- A token consists only of characters from `[A-Z0-9_.-]`. -/
def tokenOk (s : String) : Bool := s.data.all tokenChar

theorem posIntJS_normalize (v : JSNum) : posIntJS (normalizeUnitSize v) = true := by
  cases v with
  | num q =>
    show (((max 1 (ratFloor q) : Int) : ℚ).den == 1 &&
      decide (1 ≤ ((max 1 (ratFloor q) : Int) : ℚ).num)) = true
    rw [Rat.den_intCast, Rat.num_intCast]
    simp [le_max_left]
  | nan => decide
  | posInf => decide
  | negInf => decide

theorem tokenOk_sanitize (s : String) : tokenOk (sanitizeToken s) = true := by
  simp only [tokenOk, sanitizeToken, List.all_eq_true]
  intro a ha
  exact List.of_mem_filter ha

/-- C4 (amended): after every configuration update, `betUnitSize` is a positive
integer and the team-code tokens consist only of characters from `[A-Z0-9_.-]`;
after a configuration load, `betUnitSize` is a positive integer (tokens loaded
from disk are not sanitized — see the counterexample). -/
theorem config_invariants_after_update (c : KalshiConfig) (p : ConfigPatch)
    (d : Option ConfigPatch) :
    posIntJS (updateKalshiConfig c p).betUnitSize = true ∧
    tokenOk (updateKalshiConfig c p).homeCode = true ∧
    tokenOk (updateKalshiConfig c p).awayCode = true ∧
    posIntJS (loadConfigFromDisk d).betUnitSize = true := by
  refine ⟨posIntJS_normalize _, tokenOk_sanitize _, tokenOk_sanitize _, ?_⟩
  cases d with
  | none => decide
  | some parsed => exact posIntJS_normalize _

/-- C4 (counterexample): loading a config file whose `homeCode` is `"ab!"`
produces a running config whose `homeCode` still contains characters outside
`[A-Z0-9_.-]` — `loadConfigFromDisk` does not sanitize token fields. -/
theorem config_load_token_invariant_fails :
    tokenOk (loadConfigFromDisk (some
      { enabled := none, moneylineEnabled := none, spreadEnabled := none, sport := none,
        competition := none, scope := none, homeTeam := none, homeCode := some "ab!",
        awayCode := none, awayTeam := none, betUnitSize := none,
        testMode := none })).homeCode = false := by decide

/-! ### Ticker resolution lemmas -/

theorem head_insertionSort_ticker_min (cands : List MlCandidate) :
    ((List.insertionSort (fun a b : MlCandidate => a.ticker ≤ b.ticker) cands).head?).map
      MlCandidate.ticker = (cands.map MlCandidate.ticker).min? := by
  haveI : IsTotal MlCandidate (fun a b => a.ticker ≤ b.ticker) :=
    ⟨fun a b => le_total a.ticker b.ticker⟩
  haveI : IsTrans MlCandidate (fun a b => a.ticker ≤ b.ticker) :=
    ⟨fun _ _ _ hab hbc => le_trans hab hbc⟩
  haveI : Std.Antisymm (fun a b : String => a ≤ b) := ⟨@fun a b h1 h2 => le_antisymm h1 h2⟩
  cases hs : List.insertionSort (fun a b : MlCandidate => a.ticker ≤ b.ticker) cands with
  | nil =>
    have hperm := List.perm_insertionSort (fun a b : MlCandidate => a.ticker ≤ b.ticker) cands
    rw [hs] at hperm
    have hnil : cands = [] := hperm.symm.eq_nil
    subst hnil
    simp
  | cons b t =>
    have hperm := List.perm_insertionSort (fun a b : MlCandidate => a.ticker ≤ b.ticker) cands
    rw [hs] at hperm
    have hsorted :=
      List.sorted_insertionSort (fun a b : MlCandidate => a.ticker ≤ b.ticker) cands
    rw [hs] at hsorted
    have hpair := List.sorted_cons.mp hsorted
    simp only [List.head?_cons, Option.map_some']
    symm
    rw [List.min?_eq_some_iff (fun a => le_refl a) (fun a b => min_choice a b)
      (fun a b c => le_min_iff)]
    constructor
    · exact List.mem_map_of_mem MlCandidate.ticker (hperm.subset (List.mem_cons_self b t))
    · intro y hy
      rcases List.mem_map.mp hy with ⟨c, hc, rfl⟩
      have hcs : c ∈ b :: t := hperm.symm.subset hc
      rcases List.mem_cons.mp hcs with rfl | hct
      · exact le_refl _
      · exact hpair.1 c hct

theorem min?_perm_invariant {l₁ l₂ : List String} (h : l₁.Perm l₂) : l₁.min? = l₂.min? := by
  haveI : Std.Antisymm (fun a b : String => a ≤ b) := ⟨@fun a b h1 h2 => le_antisymm h1 h2⟩
  cases hm : l₁.min? with
  | none =>
    rw [List.min?_eq_none_iff] at hm
    subst hm
    symm
    rw [List.min?_eq_none_iff]
    exact h.symm.eq_nil
  | some a =>
    rw [List.min?_eq_some_iff (fun a => le_refl a) (fun a b => min_choice a b)
      (fun a b c => le_min_iff)] at hm
    symm
    rw [List.min?_eq_some_iff (fun a => le_refl a) (fun a b => min_choice a b)
      (fun a b c => le_min_iff)]
    exact ⟨h.subset hm.1, fun b hb => hm.2 b (h.symm.subset hb)⟩

/-- C3 (amended): moneyline ticker resolution equals the lexicographically
smallest ticker among the filtered candidates and is invariant under any
permutation of the market list.  (Spread resolution is price-based and
order-dependent on price ties — see the counterexample.) -/
theorem moneyline_resolution_lexicographic_min (homeCode awayCode sideCode : String)
    (l₁ l₂ : List Market) (hperm : l₁.Perm l₂) :
    resolveMlTicker homeCode awayCode sideCode l₁ = resolveMlSpec homeCode awayCode sideCode l₁ ∧
    resolveMlTicker homeCode awayCode sideCode l₁ =
      resolveMlTicker homeCode awayCode sideCode l₂ := by
  have hq : ∀ l : List Market, resolveMlTicker homeCode awayCode sideCode l =
      resolveMlSpec homeCode awayCode sideCode l :=
    fun l => head_insertionSort_ticker_min (mlCandidates homeCode awayCode sideCode l)
  refine ⟨hq l₁, ?_⟩
  rw [hq l₁, hq l₂]
  apply min?_perm_invariant
  exact ((hperm.map _).filter _).map _

theorem moneyline_resolution_lexicographic_min_witness :
    resolveMlTicker "AAA" "BBB" "H"
        [⟨"NBA.AAA.BBB.ML.H", none, none, none⟩, ⟨"ABA.AAA.BBB.ML.H", none, none, none⟩] =
      resolveMlSpec "AAA" "BBB" "H"
        [⟨"NBA.AAA.BBB.ML.H", none, none, none⟩, ⟨"ABA.AAA.BBB.ML.H", none, none, none⟩] ∧
    resolveMlTicker "AAA" "BBB" "H"
        [⟨"NBA.AAA.BBB.ML.H", none, none, none⟩, ⟨"ABA.AAA.BBB.ML.H", none, none, none⟩] =
      resolveMlTicker "AAA" "BBB" "H"
        [⟨"ABA.AAA.BBB.ML.H", none, none, none⟩, ⟨"NBA.AAA.BBB.ML.H", none, none, none⟩] :=
  moneyline_resolution_lexicographic_min "AAA" "BBB" "H" _ _ (by decide)

/-- C3 (counterexample): the spread resolver is not permutation-invariant and
does not pick the lexicographically smallest ticker: with two matching spread
candidates both priced 50 (tied distance from 50), the `reduce` keeps the
earlier-listed candidate, so swapping the two markets changes the winner. -/
theorem spread_pick_order_dependent :
    ([⟨"L1.AAA.BBB.SP.H", some 50, none, none⟩,
      ⟨"L2.AAA.BBB.SP.H", some 50, none, none⟩] : List Market).Perm
      [⟨"L2.AAA.BBB.SP.H", some 50, none, none⟩,
       ⟨"L1.AAA.BBB.SP.H", some 50, none, none⟩] ∧
    spreadPick (spreadScored "AAA" "BBB" "H"
        [⟨"L1.AAA.BBB.SP.H", some 50, none, none⟩,
         ⟨"L2.AAA.BBB.SP.H", some 50, none, none⟩]) ≠
      spreadPick (spreadScored "AAA" "BBB" "H"
        [⟨"L2.AAA.BBB.SP.H", some 50, none, none⟩,
         ⟨"L1.AAA.BBB.SP.H", some 50, none, none⟩]) := by
  refine ⟨List.Perm.swap _ _ _, ?_⟩
  have hs1 : spreadScored "AAA" "BBB" "H"
      [⟨"L1.AAA.BBB.SP.H", some 50, none, none⟩, ⟨"L2.AAA.BBB.SP.H", some 50, none, none⟩] =
      [⟨"L1.AAA.BBB.SP.H", 50⟩, ⟨"L2.AAA.BBB.SP.H", 50⟩] := by decide
  have hs2 : spreadScored "AAA" "BBB" "H"
      [⟨"L2.AAA.BBB.SP.H", some 50, none, none⟩, ⟨"L1.AAA.BBB.SP.H", some 50, none, none⟩] =
      [⟨"L2.AAA.BBB.SP.H", 50⟩, ⟨"L1.AAA.BBB.SP.H", 50⟩] := by decide
  have hpick : ∀ t t2 : String,
      spreadPick [⟨t, (50 : ℚ)⟩, ⟨t2, 50⟩] = some ⟨t, 50⟩ := by
    intro t t2
    have hband : (([⟨t, (50 : ℚ)⟩, ⟨t2, 50⟩] : List SpreadScored).filter
        (fun s => decide (40 ≤ s.price) && decide (s.price ≤ 60))) =
        [⟨t, (50 : ℚ)⟩, ⟨t2, 50⟩] := by
      norm_num [List.filter]
    simp only [spreadPick, hband, List.isEmpty_cons, Bool.false_eq_true, if_false,
      List.foldl_cons, List.foldl_nil]
    rw [if_neg (lt_irrefl _)]
  rw [hs1, hs2, hpick, hpick]
  intro h
  have := Option.some.inj h
  have hticker := congrArg SpreadScored.ticker this
  simp at hticker

/-- C5: a `trigger` from a connection whose role is not `control` — including one
with no registered role — produces exactly one error reply to that connection
(`role-not-registered` when unregistered, `not-authorized` otherwise), no flash
broadcast to displays, no status broadcast, no Kalshi forwarding, and leaves the
role unchanged. -/
theorem trigger_non_control_error_only (clients : List ClientRecord) (client : ClientRecord)
    (now : Nat) (side : TriggerSide) (h : client.role ≠ some Role.control) :
    processMessage clients client now (some (InboundMessage.trigger side)) =
      ⟨[OutMessage.errorMsg
          (if client.role = none then "role-not-registered" else "not-authorized")],
        none, false, client.role, none⟩ := by
  cases hr : client.role with
  | none => simp [processMessage, hr]
  | some r =>
    cases r with
    | control => exact absurd hr h
    | display => simp [processMessage, hr]

theorem trigger_non_control_error_only_witness :
    processMessage [] ⟨"c1", some Role.display, true⟩ 5 (some (InboundMessage.trigger
        TriggerSide.home)) =
      ⟨[OutMessage.errorMsg "not-authorized"], none, false, some Role.display, none⟩ ∧
    processMessage [] ⟨"c2", none, true⟩ 5 (some (InboundMessage.trigger TriggerSide.away)) =
      ⟨[OutMessage.errorMsg "role-not-registered"], none, false, none, none⟩ := by
  constructor
  · have h := trigger_non_control_error_only [] ⟨"c1", some Role.display, true⟩ 5
      TriggerSide.home (by decide)
    simpa using h
  · have h := trigger_non_control_error_only [] ⟨"c2", none, true⟩ 5 TriggerSide.away (by decide)
    simpa using h

theorem fetchLoop_calls_bound (pages : Nat → PageResp) (s c sc st en : String) :
    ∀ (fuel pageIdx : Nat) (cursor : Option String) (all : List Market) (calls : List NetCall),
      (fetchOpenMarketsLoop pages s c sc st en fuel pageIdx cursor all calls).calls.length ≤
        calls.length + fuel := by
  intro fuel
  induction fuel with
  | zero => intro pageIdx cursor all calls; simp [fetchOpenMarketsLoop]
  | succ f ih =>
    intro pageIdx cursor all calls
    unfold fetchOpenMarketsLoop
    cases hp : pages pageIdx <;> simp only [hp]
    case httpErr status body =>
      split <;> (simp; try omega)
    case timeout => simp; try omega
    case ok ms cursorNext =>
      cases cursorNext with
      | some cur2 =>
        have := ih (pageIdx + 1) (some cur2) (all ++ ms)
          (calls ++ [⟨"GET", "/markets?" ++ marketsQueryString s c sc st en cursor⟩])
        simp at this ⊢
        omega
      | none => simp; try omega

/-- C7: the open-markets listing performs at most 10 page requests, whatever the
API answers — in particular it terminates against an API that always returns a
continuation cursor. -/
theorem fetchOpenMarkets_at_most_ten_requests (pages : Nat → PageResp)
    (sport competition scope startIso endIso : String) :
    (fetchOpenMarkets pages sport competition scope startIso endIso).calls.length ≤ 10 := by
  have h := fetchLoop_calls_bound pages sport competition scope startIso endIso 10 0 none [] []
  simpa [fetchOpenMarkets] using h

theorem orderBodyJson_ne_empty (b : OrderBody) : orderBodyJson b ≠ "" := by
  intro h
  have hd : (orderBodyJson b).data = [] := by rw [h]
  rw [orderBodyJson] at hd
  simp [String.data_append] at hd

/-- C8: when the method is (case-insensitively) GET or HEAD, the canonical
signature payload contains no serialized body and the transport carries no body,
even if a body value was passed; for any other method a passed body is
JSON-serialized into both the payload and the transport body. -/
theorem signedFetch_get_head_no_body (pathname method ts : String) (body : Option OrderBody) :
    ((jsUpper method = "GET" ∨ jsUpper method = "HEAD") →
      (buildSignedRequest pathname method body ts).serializedBody = "" ∧
      (buildSignedRequest pathname method body ts).transportBody = none ∧
      (buildSignedRequest pathname method body ts).signaturePayload =
        ts ++ jsUpper method ++ (splitPathQuery pathname).1 ++ (splitPathQuery pathname).2) ∧
    (isBodyAllowed method = true → ∀ b, body = some b →
      (buildSignedRequest pathname method body ts).serializedBody = orderBodyJson b ∧
      (buildSignedRequest pathname method body ts).transportBody = some (orderBodyJson b) ∧
      (buildSignedRequest pathname method body ts).signaturePayload =
        ts ++ jsUpper method ++ (splitPathQuery pathname).1 ++ (splitPathQuery pathname).2 ++
          orderBodyJson b) := by
  constructor
  · intro h
    have hallow : isBodyAllowed method = false := by
      rcases h with h | h <;> simp [isBodyAllowed, h]
    simp [buildSignedRequest, hallow]
  · intro hallow b hb
    subst hb
    have hne : (orderBodyJson b == "") = false :=
      beq_eq_false_iff_ne.mpr (orderBodyJson_ne_empty b)
    simp [buildSignedRequest, hallow, hne]

theorem signedFetch_get_head_no_body_witness :
    (buildSignedRequest "/markets?type=sports" "get"
        (some ⟨"T1", "yes", "buy", JSNum.num 1, "market"⟩) "100").transportBody = none ∧
    (buildSignedRequest "/portfolio/orders" "post"
        (some ⟨"T1", "yes", "buy", JSNum.num 1, "market"⟩) "100").serializedBody =
      orderBodyJson ⟨"T1", "yes", "buy", JSNum.num 1, "market"⟩ := by
  refine ⟨((signedFetch_get_head_no_body "/markets?type=sports" "get" "100"
      (some ⟨"T1", "yes", "buy", JSNum.num 1, "market"⟩)).1 (Or.inl (by decide))).2.1,
    ((signedFetch_get_head_no_body "/portfolio/orders" "post" "100"
      (some ⟨"T1", "yes", "buy", JSNum.num 1, "market"⟩)).2 (by decide)
      ⟨"T1", "yes", "buy", JSNum.num 1, "market"⟩ rfl).1⟩

theorem fetchLoop_calls_get (pages : Nat → PageResp) (s c sc st en : String) :
    ∀ (fuel pageIdx : Nat) (cursor : Option String) (all : List Market) (calls : List NetCall),
      (∀ call ∈ calls, call.method = "GET") →
      ∀ call ∈ (fetchOpenMarketsLoop pages s c sc st en fuel pageIdx cursor all calls).calls,
        call.method = "GET" := by
  intro fuel
  induction fuel with
  | zero => intro pageIdx cursor all calls h; simpa [fetchOpenMarketsLoop] using h
  | succ f ih =>
    intro pageIdx cursor all calls h
    have hext : ∀ call ∈ calls ++
        [⟨"GET", "/markets?" ++ marketsQueryString s c sc st en cursor⟩], call.method = "GET" := by
      intro call hc
      rcases List.mem_append.mp hc with h1 | h1
      · exact h call h1
      · simp at h1; subst h1; rfl
    unfold fetchOpenMarketsLoop
    cases hp : pages pageIdx <;> simp only [hp]
    case httpErr status body => split <;> exact hext
    case timeout => exact hext
    case ok ms cursorNext =>
      cases cursorNext with
      | some cur2 => exact ih _ _ _ _ hext
      | none => exact hext

theorem fetchOpenMarkets_calls_get (pages : Nat → PageResp) (s c sc st en : String) :
    ∀ call ∈ (fetchOpenMarkets pages s c sc st en).calls, call.method = "GET" :=
  fetchLoop_calls_get pages s c sc st en 10 0 none [] [] (by simp)

theorem placeMoneyline_calls_testMode (env : FetchEnv) (creds : Creds) (cfg : KalshiConfig)
    (side : TriggerSide) (ht : cfg.testMode = true) :
    (placeMoneyline env creds cfg side).calls = [] ∨
    (placeMoneyline env creds cfg side).calls =
      (fetchOpenMarkets env.pages (jsTrim cfg.sport) (jsTrim cfg.competition) (jsTrim cfg.scope)
        env.startIso env.endIso).calls := by
  unfold placeMoneyline
  repeat first
  | exact Or.inl rfl
  | exact Or.inr rfl
  | exact absurd ht (by assumption)
  | split
  | dsimp only

theorem placeSpread_calls_testMode (env : FetchEnv) (creds : Creds) (cfg : KalshiConfig)
    (side : TriggerSide) (ht : cfg.testMode = true) :
    (placeSpread env creds cfg side).calls = [] ∨
    (placeSpread env creds cfg side).calls =
      (fetchOpenMarkets env.pages (jsTrim cfg.sport) (jsTrim cfg.competition) (jsTrim cfg.scope)
        env.startIso env.endIso).calls := by
  unfold placeSpread
  repeat first
  | exact Or.inl rfl
  | exact Or.inr rfl
  | exact absurd ht (by assumption)
  | split
  | dsimp only

/-- C1: while `testMode` is on, neither handler ever issues the order-placement
POST to `/portfolio/orders` (every outbound call is a GET), and when a ticker is
resolved the handler records the would-be order (ticker, side, count =
`betUnitSize`, body) to the test event log and returns
`{ok:true, skippedReason:'test-mode'}`. -/
theorem kalshi_testMode_no_order_post (envMl envSp : FetchEnv) (creds : Creds)
    (cfg : KalshiConfig) (side : TriggerSide) (ht : cfg.testMode = true) :
    (∀ c ∈ (placeMoneyline envMl creds cfg side).calls,
      ¬(c.method = "POST" ∧ c.path = "/portfolio/orders")) ∧
    (∀ c ∈ (placeSpread envSp creds cfg side).calls,
      ¬(c.method = "POST" ∧ c.path = "/portfolio/orders")) ∧
    (∀ (markets : List Market) (t : String),
      matchupMetaMissing cfg = false →
      (fetchOpenMarkets envMl.pages (jsTrim cfg.sport) (jsTrim cfg.competition)
        (jsTrim cfg.scope) envMl.startIso envMl.endIso).res = Except.ok markets →
      resolveMlTicker (sanitizeToken cfg.homeCode) (sanitizeToken cfg.awayCode)
        (sideCodeOf side) markets = some t →
      (placeMoneyline envMl creds cfg side).res =
        Except.ok ⟨true, some "test-mode", none⟩ ∧
      (placeMoneyline envMl creds cfg side).testEvents =
        [⟨t, side, cfg.betUnitSize,
          TestBody.order ⟨t, "yes", "buy", cfg.betUnitSize, "market"⟩⟩]) ∧
    (∀ (markets : List Market) (pick : SpreadScored),
      matchupMetaMissing cfg = false →
      credsMissing creds = false →
      (fetchOpenMarkets envSp.pages (jsTrim cfg.sport) (jsTrim cfg.competition)
        (jsTrim cfg.scope) envSp.startIso envSp.endIso).res = Except.ok markets →
      spreadPick (spreadScored (sanitizeToken cfg.homeCode) (sanitizeToken cfg.awayCode)
        (sideCodeOf side) markets) = some pick →
      (placeSpread envSp creds cfg side).res = Except.ok ⟨true, some "test-mode", none⟩ ∧
      (placeSpread envSp creds cfg side).testEvents =
        [⟨pick.ticker, side, cfg.betUnitSize,
          TestBody.orderWithPrice ⟨pick.ticker, "yes", "buy", cfg.betUnitSize, "market"⟩
            pick.price⟩]) := by
  have hnopost : ∀ (env : FetchEnv) (calls : List NetCall),
      (calls = [] ∨ calls = (fetchOpenMarkets env.pages (jsTrim cfg.sport)
        (jsTrim cfg.competition) (jsTrim cfg.scope) env.startIso env.endIso).calls) →
      ∀ c ∈ calls, ¬(c.method = "POST" ∧ c.path = "/portfolio/orders") := by
    rintro env calls (rfl | rfl) c hc
    · simp at hc
    · rintro ⟨hm, _⟩
      have hg := fetchOpenMarkets_calls_get env.pages (jsTrim cfg.sport) (jsTrim cfg.competition)
        (jsTrim cfg.scope) env.startIso env.endIso c hc
      rw [hg] at hm
      exact absurd hm (by decide)
  refine ⟨hnopost envMl _ (placeMoneyline_calls_testMode envMl creds cfg side ht),
    hnopost envSp _ (placeSpread_calls_testMode envSp creds cfg side ht), ?_, ?_⟩
  · intro markets t hmeta hfetch hresolve
    have hne : markets ≠ [] := by
      rintro rfl
      simp [resolveMlTicker, mlCandidates, List.insertionSort] at hresolve
    have hemp : markets.isEmpty = false := by
      cases markets with
      | nil => exact absurd rfl hne
      | cons a l => rfl
    constructor <;>
      simp [placeMoneyline, hmeta, hfetch, hemp, hresolve, ht]
  · intro markets pick hmeta hcreds hfetch hresolve
    have hne : markets ≠ [] := by
      rintro rfl
      simp [spreadPick, spreadScored] at hresolve
    have hemp : markets.isEmpty = false := by
      cases markets with
      | nil => exact absurd rfl hne
      | cons a l => rfl
    constructor <;>
      simp [placeSpread, hmeta, hcreds, hfetch, hemp, hresolve, ht]

theorem kalshi_testMode_no_order_post_witness :
    (placeMoneyline
        ⟨fun _ => PageResp.ok [⟨"KXNBAGAME.BBB.AAA.ML.H", none, none, none⟩] none,
          OrderResp.resp 200 "", "S", "E"⟩
        ⟨"k", "p"⟩
        ⟨true, true, true, "Basketball", "PB", "Games", "", "AAA", "", "BBB",
          JSNum.num 3, true⟩
        TriggerSide.home).res = Except.ok ⟨true, some "test-mode", none⟩ ∧
    (placeMoneyline
        ⟨fun _ => PageResp.ok [⟨"KXNBAGAME.BBB.AAA.ML.H", none, none, none⟩] none,
          OrderResp.resp 200 "", "S", "E"⟩
        ⟨"k", "p"⟩
        ⟨true, true, true, "Basketball", "PB", "Games", "", "AAA", "", "BBB",
          JSNum.num 3, true⟩
        TriggerSide.home).testEvents =
      [⟨"KXNBAGAME.BBB.AAA.ML.H", TriggerSide.home, JSNum.num 3,
        TestBody.order ⟨"KXNBAGAME.BBB.AAA.ML.H", "yes", "buy", JSNum.num 3, "market"⟩⟩] ∧
    (placeSpread
        ⟨fun _ => PageResp.ok [⟨"KXNBAGAME.BBB.AAA.SP.H", some 50, none, none⟩] none,
          OrderResp.resp 200 "", "S", "E"⟩
        ⟨"k", "p"⟩
        ⟨true, true, true, "Basketball", "PB", "Games", "", "AAA", "", "BBB",
          JSNum.num 3, true⟩
        TriggerSide.home).res = Except.ok ⟨true, some "test-mode", none⟩ := by
  have h := kalshi_testMode_no_order_post
    ⟨fun _ => PageResp.ok [⟨"KXNBAGAME.BBB.AAA.ML.H", none, none, none⟩] none,
      OrderResp.resp 200 "", "S", "E"⟩
    ⟨fun _ => PageResp.ok [⟨"KXNBAGAME.BBB.AAA.SP.H", some 50, none, none⟩] none,
      OrderResp.resp 200 "", "S", "E"⟩
    ⟨"k", "p"⟩
    ⟨true, true, true, "Basketball", "PB", "Games", "", "AAA", "", "BBB", JSNum.num 3, true⟩
    TriggerSide.home rfl
  have hml := h.2.2.1 [⟨"KXNBAGAME.BBB.AAA.ML.H", none, none, none⟩] "KXNBAGAME.BBB.AAA.ML.H"
    (by decide) rfl (by decide)
  have hsp := h.2.2.2 [⟨"KXNBAGAME.BBB.AAA.SP.H", some 50, none, none⟩]
    ⟨"KXNBAGAME.BBB.AAA.SP.H", 50⟩ (by decide) rfl rfl (by decide)
  exact ⟨hml.1, hml.2, hsp.1⟩

theorem combineResults_ok (results : List KalshiResult) :
    (combineResults results).ok = results.all (fun r => r.ok) := by
  unfold combineResults
  split <;> simp_all

/-- C6: with the module enabled and a home/away press, when the trigger completes
with a result, that result is `ok` exactly when every enabled bet kind's
placement returned `ok` (each kind runs once; any one failure fails the whole
trigger). -/
theorem trigger_overall_ok_iff_all_kinds_ok (envMl envSp : FetchEnv) (creds : Creds)
    (cfg : KalshiConfig) (side : TriggerSide) (hen : cfg.enabled = true)
    (hside : side ≠ TriggerSide.cancel) (res : KalshiResult)
    (hres : (handleKalshiTrigger envMl envSp creds cfg side).res = Except.ok res) :
    res.ok = true ↔
      ((∀ r, cfg.moneylineEnabled = true →
          (placeMoneyline envMl creds cfg side).res = Except.ok r → r.ok = true) ∧
       (∀ r, cfg.spreadEnabled = true →
          (placeSpread envSp creds cfg side).res = Except.ok r → r.ok = true)) := by
  unfold handleKalshiTrigger at hres
  rw [if_neg hside] at hres
  rw [hen] at hres
  simp only [Bool.not_true, Bool.false_eq_true, if_false] at hres
  cases hml : cfg.moneylineEnabled with
  | true =>
    rw [hml] at hres
    simp only [if_true] at hres
    cases ho1 : (placeMoneyline envMl creds cfg side).res with
    | error e => rw [ho1] at hres; simp at hres
    | ok r1 =>
      rw [ho1] at hres
      cases hsp : cfg.spreadEnabled with
      | true =>
        rw [hsp] at hres
        simp only [if_true] at hres
        cases ho2 : (placeSpread envSp creds cfg side).res with
        | error e => rw [ho2] at hres; simp at hres
        | ok r2 =>
          rw [ho2] at hres
          simp only [Except.ok.injEq] at hres
          subst hres
          simp [combineResults_ok]
      | false =>
        rw [hsp] at hres
        simp only [Bool.false_eq_true, if_false, Except.ok.injEq] at hres
        subst hres
        simp [combineResults_ok]
  | false =>
    rw [hml] at hres
    simp only [Bool.false_eq_true, if_false] at hres
    cases hsp : cfg.spreadEnabled with
    | true =>
      rw [hsp] at hres
      simp only [if_true] at hres
      cases ho2 : (placeSpread envSp creds cfg side).res with
      | error e => rw [ho2] at hres; simp at hres
      | ok r2 =>
        rw [ho2] at hres
        simp only [Except.ok.injEq] at hres
        subst hres
        simp [combineResults_ok]
    | false =>
      rw [hsp] at hres
      simp only [Bool.false_eq_true, if_false, Except.ok.injEq] at hres
      subst hres
      simp [combineResults_ok]

theorem trigger_overall_ok_iff_all_kinds_ok_witness :
    (KalshiResult.mk true (some "no-modules-enabled") none).ok = true :=
  (trigger_overall_ok_iff_all_kinds_ok
    ⟨fun _ => PageResp.ok [] none, OrderResp.resp 200 "", "S", "E"⟩
    ⟨fun _ => PageResp.ok [] none, OrderResp.resp 200 "", "S", "E"⟩
    ⟨"k", "p"⟩
    ⟨true, false, false, "Basketball", "PB", "Games", "", "AAA", "", "BBB", JSNum.num 1, true⟩
    TriggerSide.home rfl (by decide) ⟨true, some "no-modules-enabled", none⟩ rfl).mpr
    ⟨fun r hr1 _ => absurd hr1 (by decide), fun r hr2 _ => absurd hr2 (by decide)⟩

/-- C2 (counterexample): re-signing the identical
`(timestamp, method, path, query, body)` tuple under the identical private key
does not reproduce byte-identical output.  RSASSA-PSS with salt length equal to
the digest length embeds a fresh 32-byte random salt into the encoded message,
so two invocations — here differing only in the salt drawn by the crypto
library — yield different base64 signatures.  The key is a 529-bit modulus with
private exponent 3; the payload is the canonical string for a GET of
`/markets` at a fixed timestamp. -/
theorem pss_sign_not_deterministic_across_salts :
    signedFetchSignature "1700000000000" "GET" "/markets" none
        0x1000000000000000000000000000000000000000000000000000000000000000000000000000000000000000000000000000000000000000000000000000000000009
        3 (List.replicate 32 0) ≠
      signedFetchSignature "1700000000000" "GET" "/markets" none
        0x1000000000000000000000000000000000000000000000000000000000000000000000000000000000000000000000000000000000000000000000000000000000009
        3 (1 :: List.replicate 31 0) := by decide

/-- C2 (amended): signing is a deterministic, pure function of the canonical
signature payload together with the private key and the PSS salt: two
invocations that agree on the payload, the key and the drawn salt produce
byte-identical base64 output.  (Across invocations the library draws a fresh
salt, so byte-identical reproduction is only guaranteed salt-for-salt.) -/
theorem sign_deterministic_in_payload_and_salt (ts₁ m₁ p₁ ts₂ m₂ p₂ : String)
    (b₁ b₂ : Option OrderBody) (n d : Nat) (salt : List Nat)
    (h : (buildSignedRequest p₁ m₁ b₁ ts₁).signaturePayload =
      (buildSignedRequest p₂ m₂ b₂ ts₂).signaturePayload) :
    signedFetchSignature ts₁ m₁ p₁ b₁ n d salt = signedFetchSignature ts₂ m₂ p₂ b₂ n d salt := by
  unfold signedFetchSignature
  rw [h]

theorem sign_deterministic_in_payload_and_salt_witness :
    signedFetchSignature "10" "get" "/x" none 77 3 [0] =
      signedFetchSignature "10" "GET" "/x" none 77 3 [0] :=
  sign_deterministic_in_payload_and_salt "10" "get" "/x" "10" "GET" "/x" none none 77 3 [0]
    (by decide)

/-- C10: with the module enabled but both bet kinds disabled, a home/away trigger
returns `{ok:true, skippedReason:'no-modules-enabled'}` with no network call and
no log entry. -/
theorem trigger_no_modules_enabled_skip (envMl envSp : FetchEnv) (creds : Creds)
    (cfg : KalshiConfig) (side : TriggerSide) (hen : cfg.enabled = true)
    (hml : cfg.moneylineEnabled = false) (hsp : cfg.spreadEnabled = false)
    (hside : side = TriggerSide.home ∨ side = TriggerSide.away) :
    handleKalshiTrigger envMl envSp creds cfg side =
      ⟨Except.ok ⟨true, some "no-modules-enabled", none⟩, [], [], []⟩ := by
  rcases hside with h | h <;> subst h <;>
    simp [handleKalshiTrigger, hen, hml, hsp]

theorem trigger_no_modules_enabled_skip_witness :
    handleKalshiTrigger
        ⟨fun _ => PageResp.ok [] none, OrderResp.resp 200 "", "S", "E"⟩
        ⟨fun _ => PageResp.ok [] none, OrderResp.resp 200 "", "S", "E"⟩
        ⟨"k", "p"⟩
        { defaultConfig with enabled := true, moneylineEnabled := false, spreadEnabled := false }
        TriggerSide.home =
      ⟨Except.ok ⟨true, some "no-modules-enabled", none⟩, [], [], []⟩ :=
  trigger_no_modules_enabled_skip _ _ _ _ _ rfl rfl rfl (Or.inl rfl)

end Jester
